import Mathlib

/-!
Shallow embedding of the value-ownership and canonical-codec kernel of the
qfall-math repository (integer scalar `Z`, rational scalar `Q`, polynomials
`PolyOverZ` / `PolyOverQ`, the modular matrix `MatZq`, the rational matrix
`MatQ`, and the arithmetic-composition macros), together with theorems
settling the frozen specification claims.

Strings are embedded as `List Char`; the arbitrary-precision engine (FLINT)
is embedded at its documented interface (`fmpz_set_str`, `fmpz_get_str`,
`fmpz_get_si`, `fmpz_poly_get_coeff_fmpz`, ...), with machine integers
modelled as `Int` plus explicit bounds.
-/

/-! ### Basic character and list helpers -/

/-- The `i64::MIN` bound of the canonical 64-bit signed index/conversion domain. -/
def i64Min : Int := -(2 ^ 63)

/-- The `i64::MAX` bound of the canonical 64-bit signed index/conversion domain. -/
def i64Max : Int := 2 ^ 63 - 1

/-- The null byte rejected by `CString::new`. -/
def nullChar : Char := Char.ofNat 0

/-- Rust's `char::is_whitespace`: the Unicode `White_Space` code points. -/
def isRustWhitespace (c : Char) : Bool :=
  c.toNat == 0x9 || c.toNat == 0xA || c.toNat == 0xB || c.toNat == 0xC ||
  c.toNat == 0xD || c.toNat == 0x20 || c.toNat == 0x85 || c.toNat == 0xA0 ||
  c.toNat == 0x1680 || (0x2000 ≤ c.toNat && c.toNat ≤ 0x200A) ||
  c.toNat == 0x2028 || c.toNat == 0x2029 || c.toNat == 0x202F ||
  c.toNat == 0x205F || c.toNat == 0x3000

/-- Split a character list at every occurrence of a single character. -/
def splitOnChar (sep : Char) : List Char → List (List Char)
  | [] => [[]]
  | c :: cs =>
    match splitOnChar sep cs with
    | [] => [[]]
    | r :: rs => if c = sep then [] :: r :: rs else (c :: r) :: rs

/-- Fuelled worker for `splitOnSeq`; called with fuel at least the input
length, so the fuel never runs out. -/
def splitOnSeqAux (sep : List Char) : Nat → List Char → List (List Char)
  | 0, _ => [[]]
  | _, [] => [[]]
  | fuel + 1, c :: cs =>
    if sep.isPrefixOf (c :: cs) then
      [] :: splitOnSeqAux sep fuel ((c :: cs).drop sep.length)
    else
      match splitOnSeqAux sep fuel cs with
      | [] => [[]]
      | r :: rs => (c :: r) :: rs

/-- Split a character list at every occurrence of a (non-empty) separator
sequence, e.g. the two-space separator of the polynomial grammar or the
`" mod "` marker of the modular-matrix grammar. -/
def splitOnSeq (sep : List Char) (cs : List Char) : List (List Char) :=
  splitOnSeqAux sep cs.length cs

/-- Whether the (non-empty) separator sequence occurs somewhere in the
character list, i.e. Rust's `s.contains("  ")`. -/
def containsSeq (sep cs : List Char) : Bool :=
  decide (2 ≤ (splitOnSeq sep cs).length)

/-- Remove leading and trailing space characters of an entry token. -/
def trimSpaces (cs : List Char) : List Char :=
  ((cs.dropWhile (· = ' ')).reverse.dropWhile (· = ' ')).reverse

/-- Fuelled Euclidean gcd on `Nat` (kernel-reducible model of the engine's
gcd primitive). -/
def gcdFuel : Nat → Nat → Nat → Nat
  | 0, a, _ => a
  | fuel + 1, a, b => if b = 0 then a else gcdFuel fuel b (a % b)

/-- Gcd of two natural numbers via `gcdFuel`. -/
def natGcd (a b : Nat) : Nat := gcdFuel (b + 1) a b

/-! ### Base-`b` digit codec (interface of `fmpz_get_str` / `fmpz_set_str`)

GMP/FLINT use the digits `0-9` then `a-z` for bases up to `36`
(letters case-insensitive on input) and `0-9`, `A-Z`, `a-z` — in that
significance order, case-sensitive — for bases `37` to `62`. -/

/-- The output character for digit value `d` in base `base`. -/
def digitToChar (base d : Nat) : Char :=
  if base ≤ 36 then
    if d < 10 then Char.ofNat (48 + d) else Char.ofNat (97 + d - 10)
  else
    if d < 10 then Char.ofNat (48 + d)
    else if d < 36 then Char.ofNat (65 + d - 10)
    else Char.ofNat (97 + d - 36)

/-- The digit value of input character `c` in base `base` (`none` when `c` is
not a valid digit of that base). -/
def charToDigit (base : Nat) (c : Char) : Option Nat :=
  let v : Option Nat :=
    if 48 ≤ c.toNat ∧ c.toNat ≤ 57 then some (c.toNat - 48)
    else if 65 ≤ c.toNat ∧ c.toNat ≤ 90 then some (c.toNat - 65 + 10)
    else if 97 ≤ c.toNat ∧ c.toNat ≤ 122 then
      if base ≤ 36 then some (c.toNat - 97 + 10) else some (c.toNat - 97 + 36)
    else none
  match v with
  | some d => if d < base then some d else none
  | none => none

/-- Little-endian digit list of `n` in base `b`, computed with explicit fuel. -/
def natToDigitsAux (b : Nat) : Nat → Nat → List Nat
  | 0, _ => []
  | fuel + 1, n => if n = 0 then [] else n % b :: natToDigitsAux b fuel (n / b)

/-- Big-endian digit list of `n` in base `b`; `0` is rendered as the single
digit `0`. -/
def natDigitsBE (b n : Nat) : List Nat :=
  if n = 0 then [0] else (natToDigitsAux b n n).reverse

/-- Value of a little-endian digit list in base `b`. -/
def ofDigitsLE (b : Nat) : List Nat → Nat
  | [] => 0
  | d :: ds => d + b * ofDigitsLE b ds

/-- Left-to-right accumulation of big-endian digits read from characters. -/
def parseDigitsFrom (b : Nat) (acc : Nat) : List Char → Option Nat
  | [] => some acc
  | c :: cs =>
    match charToDigit b c with
    | some d => parseDigitsFrom b (acc * b + d) cs
    | none => none

/-- Parse a non-empty all-digit character list in base `b`. -/
def parseDigits (b : Nat) (cs : List Char) : Option Nat :=
  match cs with
  | [] => none
  | _ => parseDigitsFrom b 0 cs

/-- Interface model of FLINT's `fmpz_set_str` (on a whitespace-free string):
an optional leading minus sign followed by at least one digit valid in the
given base. -/
def fmpz_set_str (b : Nat) (s : List Char) : Option Int :=
  match s with
  | [] => none
  | c :: rest =>
    if c = '-' then (parseDigits b rest).map (fun n => -(n : Int))
    else (parseDigitsFrom b 0 (c :: rest)).map (fun n => (n : Int))

/-- Interface model of FLINT's `fmpz_get_str`: minus sign for negative
values, then the base-`b` digits of the absolute value, most significant
first, with no leading zeros (`0` itself prints as `"0"`). -/
def fmpz_get_str (b : Nat) (x : Int) : List Char :=
  if x < 0 then '-' :: (natDigitsBE b x.natAbs).map (digitToChar b)
  else (natDigitsBE b x.toNat).map (digitToChar b)

/-! ### The error model (`error.rs` is summarised by its kinds) -/

/-- The `MathError` kinds relevant to the claims, with the string payloads
the source attaches to them. -/
inductive MathError where
  | OutOfBounds (bound : String) (value : String)
  | InvalidStringToZInput (s : String)
  | InvalidStringToCStringInput (s : String)
  | InvalidStringToPolyInput (s : String)
  | InvalidStringToPolyMissingWhitespace (s : String)
  | InvalidStringToQInput (s : String)
  | InvalidStringToMatrixInput (s : String)
  | InvalidIntToModulus (s : String)
  | DivisionByZeroError (s : String)
  | ConversionError (s : String)
  deriving DecidableEq, Repr

/-- The abstract error kind of a `MathError` (the spec's error taxonomy). -/
inductive ErrKind where
  | outOfBounds
  | invalidStringToZ
  | invalidStringToCString
  | invalidStringToPoly
  | missingSeparator
  | invalidStringToQ
  | invalidStringToMatrix
  | invalidModulus
  | divisionByZero
  | conversion
  deriving DecidableEq, Repr

/-- Map a `MathError` to its kind. -/
def MathError.kind : MathError → ErrKind
  | .OutOfBounds _ _ => .outOfBounds
  | .InvalidStringToZInput _ => .invalidStringToZ
  | .InvalidStringToCStringInput _ => .invalidStringToCString
  | .InvalidStringToPolyInput _ => .invalidStringToPoly
  | .InvalidStringToPolyMissingWhitespace _ => .missingSeparator
  | .InvalidStringToQInput _ => .invalidStringToQ
  | .InvalidStringToMatrixInput _ => .invalidStringToMatrix
  | .InvalidIntToModulus _ => .invalidModulus
  | .DivisionByZeroError _ => .divisionByZero
  | .ConversionError _ => .conversion

/-- The spec's `MalformedInput` family: text that does not match a grammar
(as opposed to `RangeError`-like contract violations). -/
def ErrKind.isMalformedInput : ErrKind → Bool
  | .invalidStringToZ => true
  | .invalidStringToCString => true
  | .invalidStringToPoly => true
  | .invalidStringToQ => true
  | .invalidStringToMatrix => true
  | _ => false

deriving instance DecidableEq for Except

/-- The kind of the error of a fallible result, `none` on success. -/
def errKind {α : Type} : Except MathError α → Option ErrKind
  | .error e => some e.kind
  | .ok _ => none

example : errKind (Except.error (MathError.OutOfBounds "b" "v") : Except MathError Int)
    = some ErrKind.outOfBounds := by decide

/-! ### The integer scalar `Z` (`src/integer/z/from.rs`, `to_string.rs`)

A `Z` value is an arbitrary-precision integer; the embedding is `Int`. -/

/-- Embedding of `Z::from_str_b` (`src/integer/z/from.rs`): base must lie in
`[2, 62]` (`OutOfBounds` otherwise), the text must contain no whitespace
(`InvalidStringToZInput`), `CString::new` rejects null bytes
(`InvalidStringToCStringInput`), and finally `fmpz_set_str` parses the
digits (`InvalidStringToZInput` on failure). -/
def Z.from_str_b (s : List Char) (base : Int) : Except MathError Int :=
  if ¬(2 ≤ base ∧ base ≤ 62) then
    .error (.OutOfBounds "between 2 and 62" (toString base))
  else if s.any isRustWhitespace then
    .error (.InvalidStringToZInput (String.mk s))
  else if s.any (· = nullChar) then
    .error (.InvalidStringToCStringInput (String.mk s))
  else
    match fmpz_set_str base.toNat s with
    | some v => .ok v
    | none => .error (.InvalidStringToZInput (String.mk s))

/-- Embedding of `Z`'s `FromStr` implementation: `Z::from_str_b(s, 10)`. -/
def Z.from_str (s : List Char) : Except MathError Int :=
  Z.from_str_b s 10

/-- Embedding of `Z::to_string_b` (`src/integer/z/to_string.rs`): base must
lie in `[2, 62]` (`OutOfBounds` otherwise), then `fmpz_get_str` formats the
value. -/
def Z.to_string_b (x : Int) (base : Int) : Except MathError (List Char) :=
  if ¬(2 ≤ base ∧ base ≤ 62) then
    .error (.OutOfBounds "between 2 and 62" (toString base))
  else
    .ok (fmpz_get_str base.toNat x)

/-- Embedding of `Z`'s `Display` implementation: `to_string_b(10).unwrap()`
(base `10` is always in range, so the unwrap is total). -/
def Z.display (x : Int) : List Char :=
  match Z.to_string_b x 10 with
  | .ok s => s
  | .error _ => []

/-- Interface model of FLINT's `fmpz_get_si`: the value when it fits into an
`i64`, otherwise silent saturation at `i64::MAX` / `i64::MIN`. -/
def fmpz_get_si (x : Int) : Int :=
  if x > i64Max then i64Max
  else if x < i64Min then i64Min
  else x

/-- Embedding of `impl TryFrom<&Z> for i64` (`src/integer/z/from.rs`):
narrow with `fmpz_get_si`, re-widen the narrowed result with `Z::from`, and
compare against the original value instead of trusting the saturating
primitive; mismatch is a `ConversionError`. -/
def i64_try_from (value : Int) : Except MathError Int :=
  let value_i64 := fmpz_get_si value
  if value_i64 = value then
    .ok value_i64
  else
    .error (.ConversionError (String.mk
      ("The provided value has to fit into an i64 and it doesn't as the provided value is ".data
        ++ Z.display value)))

example : Z.from_str_b "100".data 2 = .ok 4 := by decide
example : Z.from_str "-42".data = .ok (-42) := by decide
example : Z.from_str "3-2".data = .error (.InvalidStringToZInput "3-2") := by decide
example : Z.to_string_b (-170) 16 = .ok "-aa".data := by decide
example : Z.to_string_b 255 62 = .ok "47".data := by decide
example : i64_try_from 42 = .ok 42 := by decide
example : errKind (i64_try_from (2 ^ 64 - 1)) = some .conversion := by decide

/-! ### Polynomials over `Z` and `Q` -/

/-- Modelled from the spec: `utils::index::evaluate_index` is not under
`src/`; the spec's index-conversion boundary ("attempts narrowing to the
canonical index type and fails with `RangeError` on overflow or negative
value") narrows any integer-like index to `i64` (`OutOfBounds` when it does
not fit) and then rejects negative indices (`OutOfBounds`). -/
def evaluate_index (index : Int) : Except MathError Int :=
  if index < 0 ∨ i64Max < index then
    .error (.OutOfBounds "a non-negative index fitting into an i64" (toString index))
  else
    .ok index

/-- A `PolyOverZ` value: the trimmed coefficient list, constant term first. -/
structure PolyOverZ where
  coeffs : List Int
  deriving DecidableEq, Repr

/-- Interface model of FLINT's `fmpz_poly_get_coeff_fmpz`: the coefficient at
a non-negative index, `0` at or beyond the stored length. -/
def fmpz_poly_get_coeff (coeffs : List Int) (index : Int) : Int :=
  coeffs.getD index.toNat 0

/-- Embedding of `PolyOverZ::get_coeff` (`src/integer/poly_over_z/get.rs`):
evaluate the index at the conversion boundary, then fetch the coefficient
with `fmpz_poly_get_coeff_fmpz`. -/
def PolyOverZ.get_coeff (p : PolyOverZ) (index : Int) : Except MathError Int :=
  match evaluate_index index with
  | .error e => .error e
  | .ok idx => .ok (fmpz_poly_get_coeff p.coeffs idx)

/-- Parse the `"<count>  <c0> <c1> ..."` polynomial body: the count and the
single-space-separated coefficient tokens, separated by exactly one
double-space, with the count equal to the number of tokens. Each token is
parsed by `tok`. The zero polynomial is the single string `"0"`. -/
def polyBody {α : Type} (tok : List Char → Option α) (s : List Char) : Option (List α) :=
  if s = ['0'] then some [] else
  match splitOnSeq "  ".data s with
  | [countStr, rest] =>
    match parseDigits 10 countStr with
    | some count =>
      let toks := splitOnChar ' ' rest
      if toks.length = count then toks.mapM tok else none
    | none => none
  | _ => none

/-- Interface model of FLINT's `fmpz_poly_set_str`: the polynomial body with
base-10 integer coefficient tokens, trailing zero coefficients trimmed
(`_fmpz_poly_normalise`). -/
def fmpz_poly_set_str (s : List Char) : Option (List Int) :=
  (polyBody (fmpz_set_str 10) s).map
    (fun cs => (cs.reverse.dropWhile (· = 0)).reverse)

/-- Modelled from the spec: `PolyOverZ`'s `FromStr` is not under `src/` (only
its `PolyOverQ` counterpart is); per the spec's polynomial grammar it
mirrors `PolyOverQ::from_str`: null bytes are rejected by `CString::new`,
then `fmpz_poly_set_str` parses the body, and on failure the missing
double-space separator is distinguished from other malformed input. -/
def PolyOverZ.from_str (s : List Char) : Except MathError PolyOverZ :=
  if s.any (· = nullChar) then
    .error (.InvalidStringToCStringInput (String.mk s))
  else
    match fmpz_poly_set_str s with
    | some cs => .ok ⟨cs⟩
    | none =>
      if ¬(containsSeq "  ".data s = true) then
        .error (.InvalidStringToPolyMissingWhitespace (String.mk s))
      else
        .error (.InvalidStringToPolyInput (String.mk s))

/-- A rational number as stored by the engine: numerator and denominator. -/
structure Fmpq where
  num : Int
  den : Int
  deriving DecidableEq, Repr

/-- Interface model of the engine's rational canonicalisation
(`fmpq_canonicalise`): make the denominator positive, then divide both parts
by their gcd. -/
def fmpq_canonicalise (q : Fmpq) : Fmpq :=
  let n := if q.den < 0 then -q.num else q.num
  let d := if q.den < 0 then -q.den else q.den
  let g : Int := (natGcd n.natAbs d.natAbs : Nat)
  ⟨n / g, d / g⟩

/-- Interface model of the rational token parser used inside
`fmpq_poly_set_str`: `<int>` or `<int>/<int>` with a non-zero denominator,
not yet canonicalised (`set_str` assumes reduced input). -/
def fmpq_set_str (s : List Char) : Option Fmpq :=
  match splitOnChar '/' s with
  | [n] => (fmpz_set_str 10 n).map (fun v => ⟨v, 1⟩)
  | [n, d] =>
    match fmpz_set_str 10 n, fmpz_set_str 10 d with
    | some nv, some dv => if dv = 0 then none else some ⟨nv, dv⟩
    | _, _ => none
  | _ => none

/-- A `PolyOverQ` value: the coefficient list, constant term first, each
coefficient canonical and the trailing zeros trimmed. -/
structure PolyOverQ where
  coeffs : List Fmpq
  deriving DecidableEq, Repr

/-- Interface model of FLINT's `fmpq_poly_set_str`: the polynomial body with
rational coefficient tokens. -/
def fmpq_poly_set_str (s : List Char) : Option (List Fmpq) :=
  polyBody fmpq_set_str s

/-- Interface model of FLINT's `fmpq_poly_canonicalise`: reduce every
coefficient and trim trailing zeros. -/
def fmpq_poly_canonicalise (cs : List Fmpq) : List Fmpq :=
  ((cs.map fmpq_canonicalise).reverse.dropWhile (fun q => q.num = 0)).reverse

/-- Embedding of `PolyOverQ`'s `FromStr` (`src/rational/poly_over_q/from.rs`):
`CString::new` rejects null bytes, `fmpq_poly_set_str` parses the body and
`fmpq_poly_canonicalise` reduces the coefficients; on parse failure a string
without the double-space separator gets the dedicated
`InvalidStringToPolyMissingWhitespace` error, any other failure the general
`InvalidStringToPolyInput` error. -/
def PolyOverQ.from_str (s : List Char) : Except MathError PolyOverQ :=
  if s.any (· = nullChar) then
    .error (.InvalidStringToCStringInput (String.mk s))
  else
    match fmpq_poly_set_str s with
    | some cs => .ok ⟨fmpq_poly_canonicalise cs⟩
    | none =>
      if ¬(containsSeq "  ".data s = true) then
        .error (.InvalidStringToPolyMissingWhitespace (String.mk s))
      else
        .error (.InvalidStringToPolyInput (String.mk s))

example : PolyOverZ.from_str "4  0 1 2 3".data = .ok ⟨[0, 1, 2, 3]⟩ := by decide
example : PolyOverZ.from_str "3  24 1 0".data = .ok ⟨[24, 1]⟩ := by decide
example : errKind (PolyOverQ.from_str "3 1 2/5 -3/2".data) = some .missingSeparator := by
  decide
example : PolyOverQ.from_str "3  1 2/5 -3/2".data
    = .ok ⟨[⟨1, 1⟩, ⟨2, 5⟩, ⟨-3, 2⟩]⟩ := by decide
example : PolyOverQ.from_str "3  4/77 4/14 -28/21".data
    = PolyOverQ.from_str "3  4/77 2/7 -28/21".data := by decide
example : errKind (PolyOverQ.from_str "3  1  2/5  -3/2".data) = some .invalidStringToPoly := by
  decide
example : errKind (PolyOverQ.from_str "4  1 2/5 -3/2".data) = some .invalidStringToPoly := by
  decide
example : errKind (PolyOverQ.from_str "3  1 2/5 -3/2/3".data) = some .invalidStringToPoly := by
  decide

/-! ### The rational scalar `Q` -/

/-- Modelled from the spec: `Q`'s `FromStr` is not under `src/` (only
`Q::default` and the `MatQ` layer are); per the spec's scalar-parse contract
the text must contain no whitespace and no null byte, the grammar is
`<numerator>` or `<numerator>/<denominator>` in base 10, and the value is
canonicalised to lowest terms with a positive denominator immediately after
parse (`fmpq_canonicalise`). -/
def Q.from_str (s : List Char) : Except MathError Fmpq :=
  if s.any isRustWhitespace then
    .error (.InvalidStringToQInput (String.mk s))
  else if s.any (· = nullChar) then
    .error (.InvalidStringToCStringInput (String.mk s))
  else
    match fmpq_set_str s with
    | some q => .ok (fmpq_canonicalise q)
    | none => .error (.InvalidStringToQInput (String.mk s))

/-- Modelled from the spec: `Q`'s `Display` is not under `src/`; per the
engine's `fmpq_get_str` interface (and the `MatQ` doc example in
`src/rational/mat_q.rs`, where the entry `"0/1"` renders as `"0"`) a value
with denominator `1` prints as the bare numerator, any other value as
`<numerator>/<denominator>`. -/
def Q.to_string (q : Fmpq) : List Char :=
  if q.den = 1 then fmpz_get_str 10 q.num
  else fmpz_get_str 10 q.num ++ '/' :: fmpz_get_str 10 q.den

example : Q.from_str "24/42".data = .ok ⟨4, 7⟩ := by decide
example : Q.from_str "-1/-5".data = .ok ⟨1, 5⟩ := by decide
example : Q.to_string ⟨0, 1⟩ = "0".data := by decide
example : Q.to_string ⟨-3, 2⟩ = "-3/2".data := by decide

/-! ### Matrices: `MatZq` and `MatQ` -/

/-- Whether all rows of a parsed matrix body have the same length. -/
def allSameLength {α : Type} : List (List α) → Bool
  | [] => true
  | r :: rs => rs.all (fun q => q.length = r.length)

/-- Parse a bracketed matrix body `[[...],[...],...]`: entry tokens are
separated by commas (surrounding spaces trimmed) and parsed by `tok`. -/
def matrixRows {α : Type} (tok : List Char → Option α) (body : List Char) : Option (List (List α)) :=
  if "[[".data.isPrefixOf body ∧ "]]".data.isPrefixOf body.reverse then
    let inner := ((body.drop 2).dropLast).dropLast
    (splitOnSeq "],[".data inner).mapM
      (fun row => (splitOnChar ',' row).mapM (fun t => tok (trimSpaces t)))
  else none

/-- A `MatZq` value: the entry rows, each entry reduced into
`[0, modulus)`, together with the positive modulus. -/
structure MatZq where
  entries : List (List Int)
  modulus : Int
  deriving DecidableEq, Repr

/-- Modelled from the spec: `MatZq`'s `FromStr` is not under `src/` (only its
serialization wrapper and tests are); per the spec's matrix grammar the text
is `[[...],[...]] mod <modulus>`, a non-positive modulus is rejected at
construction, all rows must have equal length, and every entry is reduced
into `[0, modulus)` on construction. -/
def MatZq.from_str (s : List Char) : Except MathError MatZq :=
  match splitOnSeq " mod ".data s with
  | [body, modStr] =>
    match fmpz_set_str 10 modStr with
    | some m =>
      if m ≤ 0 then
        .error (.InvalidIntToModulus (String.mk modStr))
      else
        match matrixRows (fmpz_set_str 10) body with
        | some rows =>
          if rows ≠ [] ∧ allSameLength rows = true then
            .ok ⟨rows.map (fun r => r.map (fun x => x % m)), m⟩
          else
            .error (.InvalidStringToMatrixInput (String.mk s))
        | none => .error (.InvalidStringToMatrixInput (String.mk s))
    | none => .error (.InvalidIntToModulus (String.mk modStr))
  | _ => .error (.InvalidStringToMatrixInput (String.mk s))

/-- Modelled from the spec: `MatZq`'s canonical text output (`to_string`) is
not under `src/`; per the spec's matrix grammar and the serialization tests
in `src/integer_mod_q/mat_zq/serialize.rs` (for instance the expected output
`"[[40, 15, 1],[44, 52, 15]] mod 57"`), rows are bracketed and joined with
`","`, entries inside a row are joined with `", "`, and the `" mod <m>"`
suffix carries the modulus. -/
def MatZq.to_string (M : MatZq) : List Char :=
  "[".data
    ++ List.intercalate ",".data
      (M.entries.map (fun r =>
        "[".data ++ List.intercalate ", ".data (r.map (fmpz_get_str 10)) ++ "]".data))
    ++ "]".data ++ " mod ".data ++ fmpz_get_str 10 M.modulus

/-- Modelled from the spec: the `serialize!` macro is not under `src/`; per
the spec every type serializes to the single-field object
`{"<field-name>": "<canonical text form>"}`. -/
def serializeWrap (field payload : List Char) : List Char :=
  "\x7b\"".data ++ field ++ "\":\"".data ++ payload ++ "\"\x7d".data

/-- The structured serialization of a `MatZq`:
`serialize!("matrix", MatZq)` over the canonical text form. -/
def MatZq.serialize (M : MatZq) : List Char :=
  serializeWrap "matrix".data M.to_string

/-- A `MatQ` value: the entry rows, each entry canonical. -/
structure MatQ where
  entries : List (List Fmpq)
  deriving DecidableEq, Repr

/-- Modelled from the spec: `MatQ`'s `FromStr` is not under `src/` (only its
serialization wrapper and the type definition are); per the spec's matrix
grammar the text is `[[...],[...]]` with rational entries, all rows of equal
length, each entry reduced to lowest terms with positive denominator. -/
def MatQ.from_str (s : List Char) : Except MathError MatQ :=
  match matrixRows fmpq_set_str s with
  | some rows =>
    if rows ≠ [] ∧ allSameLength rows = true then
      .ok ⟨rows.map (fun r => r.map fmpq_canonicalise)⟩
    else
      .error (.InvalidStringToMatrixInput (String.mk s))
  | none => .error (.InvalidStringToMatrixInput (String.mk s))

/-- Modelled from the spec: the `deserialize!` macro is not under `src/`; per
the spec, structured deserialization of a single-field object reads exactly
one field, whose name must be the type's fixed field name: an object with no
field (missing), with more than one field (additional or duplicate), or with
a differently named field is rejected, and otherwise the payload string is
parsed with the type's own `from_str`, whose failure is propagated as a
recoverable deserialization failure (`none`, never a panic: the model is a
total function). -/
def deserializeStruct {α : Type} (field : String)
    (parse : List Char → Except MathError α) (obj : List (String × String)) : Option α :=
  match obj with
  | [(k, v)] => if k = field then (parse v.data).toOption else none
  | _ => none

/-- `deserialize!("matrix", Matrix, MatZq)`. -/
def MatZq.deserialize (obj : List (String × String)) : Option MatZq :=
  deserializeStruct "matrix" MatZq.from_str obj

/-- `deserialize!("matrix", Matrix, MatQ)`. -/
def MatQ.deserialize (obj : List (String × String)) : Option MatQ :=
  deserializeStruct "matrix" MatQ.from_str obj

example : MatZq.from_str "[[-17,-42,1],[-13,-5,-42]] mod 57".data
    = .ok ⟨[[40, 15, 1], [44, 52, 15]], 57⟩ := by decide
example : (MatZq.from_str "[[-17,-42,1],[-13,-5,-42]] mod 57".data).map MatZq.serialize
    = .ok "\x7b\"matrix\":\"[[40, 15, 1],[44, 52, 15]] mod 57\"\x7d".data := by decide
example : errKind (MatZq.from_str "[[2,17,42]] mod -57".data) = some .invalidModulus := by decide
example : errKind (MatZq.from_str "[[2,17,42]]".data) = some .invalidStringToMatrix := by decide
example : errKind (MatZq.from_str "[[1,2],[3]] mod 5".data) = some .invalidStringToMatrix := by
  decide
example : MatQ.from_str "[[17, 42/17],[1, 17/3]]".data
    = .ok ⟨[[⟨17, 1⟩, ⟨42, 17⟩], [⟨1, 1⟩, ⟨17, 3⟩]]⟩ := by decide

/-! ### The arithmetic composition layer (`src/macros/arithmetics.rs`)

Ownership is erased in the embedding, so owned and borrowed operands carry
the same value; each generated `impl` becomes its own definition whose body
is the literal delegation the macro emits. -/

/-- One instantiation of `arithmetic_between_types!` for a single operator:
the canonical hand-written implementation on two borrowed library-type
operands (`&Out op &Out`), plus the `Out::from` conversion absorbing the
fixed-width `Other` type. -/
structure ArithBetweenTypes (Out Other : Type) where
  canonical : Out → Out → Out
  conv : Other → Out

/-- The generated `impl Trait<&Other> for &Out`
(`src/macros/arithmetics.rs:123`): `self.op(Out::from(*other))`, delegating
through the mixed form to the canonical borrowed implementation. -/
def arithRefOutRefOther {Out Other : Type} (m : ArithBetweenTypes Out Other)
    (a : Out) (b : Other) : Out :=
  m.canonical a (m.conv b)

/-- The generated `impl Trait<Other> for Out`
(`arithmetic_trait_borrowed_to_owned!`, `src/macros/arithmetics.rs:133`):
`(&self).op(&other)`. -/
def arithOwnOutOwnOther {Out Other : Type} (m : ArithBetweenTypes Out Other)
    (a : Out) (b : Other) : Out :=
  arithRefOutRefOther m a b

/-- The generated `impl Trait<Other> for &Out`
(`arithmetic_trait_mixed_borrowed_owned!`, `src/macros/arithmetics.rs:134`):
`self.op(&other)`. -/
def arithRefOutOwnOther {Out Other : Type} (m : ArithBetweenTypes Out Other)
    (a : Out) (b : Other) : Out :=
  arithRefOutRefOther m a b

/-- The generated `impl Trait<&Other> for Out`
(`arithmetic_trait_mixed_borrowed_owned!`, `src/macros/arithmetics.rs:134`):
`(&self).op(other)`. -/
def arithOwnOutRefOther {Out Other : Type} (m : ArithBetweenTypes Out Other)
    (a : Out) (b : Other) : Out :=
  arithRefOutRefOther m a b

/-- The generated `impl Trait<&Out> for &Other`
(`src/macros/arithmetics.rs:137`): the body is
`other.op(Out::from(*self))`, so the converted left operand becomes the
RIGHT operand of the canonical borrowed implementation. -/
def arithRefOtherRefOut {Out Other : Type} (m : ArithBetweenTypes Out Other)
    (a : Other) (b : Out) : Out :=
  m.canonical b (m.conv a)

/-- The generated `impl Trait<Out> for Other`
(`arithmetic_trait_borrowed_to_owned!`, `src/macros/arithmetics.rs:146`):
`(&self).op(&other)`. -/
def arithOwnOtherOwnOut {Out Other : Type} (m : ArithBetweenTypes Out Other)
    (a : Other) (b : Out) : Out :=
  arithRefOtherRefOut m a b

/-- The generated `impl Trait<Out> for &Other`
(`arithmetic_trait_mixed_borrowed_owned!`, `src/macros/arithmetics.rs:147`):
`self.op(&other)`. -/
def arithRefOtherOwnOut {Out Other : Type} (m : ArithBetweenTypes Out Other)
    (a : Other) (b : Out) : Out :=
  arithRefOtherRefOut m a b

/-- The generated `impl Trait<&Out> for Other`
(`arithmetic_trait_mixed_borrowed_owned!`, `src/macros/arithmetics.rs:147`):
`(&self).op(other)`. -/
def arithOwnOtherRefOut {Out Other : Type} (m : ArithBetweenTypes Out Other)
    (a : Other) (b : Out) : Out :=
  arithRefOtherRefOut m a b

/-- Modelled from the spec: the operator/type-pair instantiations of
`arithmetic_between_types!` are not under `src/` (only the macro is); the
spec declares "each arithmetic operator (add, subtract, multiply, ...)" for
"a type and each fixed-width integer type it can absorb". This is the
declared subtraction instance on `(Z, i64)`: the canonical borrowed
implementation is `fmpz_sub`, i.e. integer subtraction, and `Z::from(i64)`
is the inclusion of `i64` values. -/
def subZI64 : ArithBetweenTypes Int Int :=
  ⟨fun a b => a - b, fun v => v⟩

/-- Modelled from the spec: the declared addition instance of
`arithmetic_between_types!` on `(Z, i64)`: the canonical borrowed
implementation is `fmpz_add`, i.e. integer addition. -/
def addZI64 : ArithBetweenTypes Int Int :=
  ⟨fun a b => a + b, fun v => v⟩

example : arithRefOutRefOther subZI64 5 3 = 2 := by decide
example : arithRefOtherRefOut subZI64 5 3 = -2 := by decide

/-! ### Round-trip lemmas for the base-`b` digit codec -/

/-- Decoding inverts encoding for every digit value of every base in range. -/
theorem charToDigit_digitToChar :
    ∀ b < 63, ∀ d < b, charToDigit b (digitToChar b d) = some d := by
  decide

/-- Digit characters (and the minus sign) are never whitespace, never the
null byte, and a digit character is never the minus sign. -/
theorem digitToChar_safe :
    ∀ b < 63, ∀ d < b, isRustWhitespace (digitToChar b d) = false
      ∧ digitToChar b d ≠ nullChar ∧ digitToChar b d ≠ '-' := by
  decide

/-- Every digit produced by `natToDigitsAux` is smaller than the base. -/
theorem natToDigitsAux_lt {b : Nat} (hb : 2 ≤ b) :
    ∀ fuel n d, d ∈ natToDigitsAux b fuel n → d < b := by
  intro fuel
  induction fuel with
  | zero => intro n d h; simp [natToDigitsAux] at h
  | succ f ih =>
    intro n d h
    by_cases h0 : n = 0
    · simp [natToDigitsAux, h0] at h
    · simp only [natToDigitsAux, h0, if_false, List.mem_cons] at h
      rcases h with h | h
      · subst h; exact Nat.mod_lt _ (by omega)
      · exact ih _ _ h

/-- `natToDigitsAux` produces the little-endian digits of its input whenever
the fuel is at least the input. -/
theorem ofDigitsLE_natToDigitsAux {b : Nat} (hb : 2 ≤ b) :
    ∀ fuel n, n ≤ fuel → ofDigitsLE b (natToDigitsAux b fuel n) = n := by
  intro fuel
  induction fuel with
  | zero => intro n hn; interval_cases n; simp [natToDigitsAux, ofDigitsLE]
  | succ f ih =>
    intro n hn
    by_cases h0 : n = 0
    · simp [natToDigitsAux, h0, ofDigitsLE]
    · have hlt : n / b < n := Nat.div_lt_self (by omega) (by omega)
      have hdiv : n / b ≤ f := by omega
      simp only [natToDigitsAux, h0, if_false, ofDigitsLE, ih _ hdiv]
      exact Nat.mod_add_div n b

/-- Accumulating parse of an encoded digit list. -/
theorem parseDigitsFrom_map {b : Nat} (hb63 : b < 63) :
    ∀ (ds : List Nat), (∀ d ∈ ds, d < b) → ∀ acc,
      parseDigitsFrom b acc (ds.map (digitToChar b))
        = some (ds.foldl (fun a d => a * b + d) acc) := by
  intro ds
  induction ds with
  | nil => intro _ acc; simp [parseDigitsFrom]
  | cons d rest ih =>
    intro h acc
    have hd : d < b := h d (by simp)
    simp only [List.map_cons, parseDigitsFrom, charToDigit_digitToChar b hb63 d hd,
      List.foldl_cons]
    exact ih (fun x hx => h x (by simp [hx])) (acc * b + d)

/-- Reading big-endian digits left to right computes the value of the
little-endian digit list they came from. -/
theorem foldl_reverse_ofDigitsLE {b : Nat} :
    ∀ le : List Nat, le.reverse.foldl (fun a d => a * b + d) 0 = ofDigitsLE b le := by
  intro le
  induction le with
  | nil => simp [ofDigitsLE]
  | cons d rest ih =>
    simp only [List.reverse_cons, List.foldl_append, List.foldl_cons, List.foldl_nil, ih,
      ofDigitsLE]
    rw [Nat.mul_comm]
    omega

/-- The big-endian digit list of `n` is never empty. -/
theorem natDigitsBE_ne_nil {b n : Nat} : natDigitsBE b n ≠ [] := by
  by_cases h0 : n = 0
  · simp [natDigitsBE, h0]
  · have : ∃ f, n = f + 1 := ⟨n - 1, by omega⟩
    obtain ⟨f, hf⟩ := this
    simp [natDigitsBE, h0, hf, natToDigitsAux]

/-- Every digit of `natDigitsBE` is smaller than the base. -/
theorem natDigitsBE_lt {b n : Nat} (hb : 2 ≤ b) :
    ∀ d ∈ natDigitsBE b n, d < b := by
  intro d hd
  by_cases h0 : n = 0
  · simp [natDigitsBE, h0] at hd; omega
  · simp only [natDigitsBE, h0, if_false, List.mem_reverse] at hd
    exact natToDigitsAux_lt hb n n d hd

/-- Parsing the base-`b` rendering of `n` gives back `n`. -/
theorem parse_natDigitsBE {b n : Nat} (hb : 2 ≤ b) (hb63 : b < 63) :
    parseDigitsFrom b 0 ((natDigitsBE b n).map (digitToChar b)) = some n := by
  rw [parseDigitsFrom_map hb63 _ (natDigitsBE_lt hb) 0]
  by_cases h0 : n = 0
  · simp [natDigitsBE, h0, List.foldl]
  · simp only [natDigitsBE, h0, if_false]
    rw [foldl_reverse_ofDigitsLE, ofDigitsLE_natToDigitsAux hb n n (Nat.le_refl n)]

/-- No character of a formatted value is whitespace, the null byte, and no
digit character is the minus sign. -/
theorem fmpz_get_str_safe {b : Nat} (hb : 2 ≤ b) (hb63 : b < 63) (x : Int) :
    ∀ c ∈ fmpz_get_str b x, isRustWhitespace c = false ∧ c ≠ nullChar := by
  intro c hc
  have hdig : ∀ m, c ∈ (natDigitsBE b m).map (digitToChar b) →
      isRustWhitespace c = false ∧ c ≠ nullChar := by
    intro m hm
    obtain ⟨d, hd, rfl⟩ := List.mem_map.mp hm
    have hdb : d < b := natDigitsBE_lt hb d hd
    obtain ⟨h1, h2, _⟩ := digitToChar_safe b hb63 d hdb
    exact ⟨h1, h2⟩
  unfold fmpz_get_str at hc
  by_cases hx : x < 0
  · simp only [hx, if_true, List.mem_cons] at hc
    rcases hc with rfl | hc
    · exact ⟨by decide, by decide⟩
    · exact hdig _ hc
  · simp only [hx, if_false] at hc
    exact hdig _ hc

/-- The engine's parser inverts the engine's formatter. -/
theorem fmpz_set_str_fmpz_get_str {b : Nat} (hb2 : 2 ≤ b) (hb63 : b < 63) (x : Int) :
    fmpz_set_str b (fmpz_get_str b x) = some x := by
  by_cases hx : x < 0
  · have hmag : (natDigitsBE b x.natAbs).map (digitToChar b) ≠ [] := by
      simp [natDigitsBE_ne_nil]
    obtain ⟨c, cs, hcons⟩ := List.exists_cons_of_ne_nil hmag
    simp only [fmpz_get_str, hx, if_true, fmpz_set_str, if_pos rfl]
    rw [hcons]
    simp only [parseDigits]
    rw [← hcons, parse_natDigitsBE hb2 hb63]
    have hval : -((x.natAbs : Nat) : Int) = x := by omega
    exact congrArg some hval
  · have hx0 : 0 ≤ x := by omega
    have hmag : (natDigitsBE b x.toNat).map (digitToChar b) ≠ [] := by
      simp [natDigitsBE_ne_nil]
    obtain ⟨c, cs, hcons⟩ := List.exists_cons_of_ne_nil hmag
    have hcm : c ∈ (natDigitsBE b x.toNat).map (digitToChar b) := by rw [hcons]; simp
    obtain ⟨d, hd, hdc⟩ := List.mem_map.mp hcm
    have hcne : c ≠ '-' := by
      rw [← hdc]
      exact (digitToChar_safe b hb63 d (natDigitsBE_lt hb2 d hd)).2.2
    simp only [fmpz_get_str, hx, if_false]
    rw [hcons]
    simp only [fmpz_set_str, if_neg hcne]
    rw [← hcons, parse_natDigitsBE hb2 hb63]
    have hval : ((x.toNat : Nat) : Int) = x := by omega
    exact congrArg some hval

/-- Parsing the formatted value back, through the full `Z` codec with its
whitespace and null-byte pre-checks. -/
theorem z_from_str_b_fmpz_get_str (x : Int) (base : Int)
    (h2 : 2 ≤ base) (h62 : base ≤ 62) :
    Z.from_str_b (fmpz_get_str base.toNat x) base = .ok x := by
  have hcond : ¬¬(2 ≤ base ∧ base ≤ 62) := fun h => h ⟨h2, h62⟩
  have hb2 : 2 ≤ base.toNat := by omega
  have hb63 : base.toNat < 63 := by omega
  have hws : (fmpz_get_str base.toNat x).any isRustWhitespace = false := by
    rw [List.any_eq_false]
    intro c hc
    simp [(fmpz_get_str_safe hb2 hb63 x c hc).1]
  have hnull : (fmpz_get_str base.toNat x).any (· = nullChar) = false := by
    rw [List.any_eq_false]
    intro c hc
    simp [(fmpz_get_str_safe hb2 hb63 x c hc).2]
  simp only [Z.from_str_b, if_neg hcond, hws, hnull, Bool.false_eq_true, if_false,
    fmpz_set_str_fmpz_get_str hb2 hb63 x]

/-! ### Claim theorems -/

/-- C3: for every integer scalar `x` and every base `b` in `[2, 62]`, parsing
the text produced by formatting `x` in base `b`, using the same base `b`,
yields the scalar `x` back; in particular the round trip holds for base 10,
the default used by the `Display` and `FromStr` implementations. -/
theorem claim_C3_parse_to_text_round_trip (x : Int) (base : Int)
    (h2 : 2 ≤ base) (h62 : base ≤ 62) :
    (Z.to_string_b x base).bind (fun s => Z.from_str_b s base) = .ok x
      ∧ Z.from_str (Z.display x) = .ok x := by
  have hcond : ¬¬(2 ≤ base ∧ base ≤ 62) := fun h => h ⟨h2, h62⟩
  constructor
  · simp only [Z.to_string_b, if_neg hcond, Except.bind]
    exact z_from_str_b_fmpz_get_str x base h2 h62
  · have hdisp : Z.display x = fmpz_get_str 10 x := by
      simp [Z.display, Z.to_string_b]
    rw [Z.from_str, hdisp]
    exact z_from_str_b_fmpz_get_str x 10 (by decide) (by decide)

/-- Witness for C3 at the concrete scalar `-42` and base `16`. -/
theorem claim_C3_witness :
    (Z.to_string_b (-42) 16).bind (fun s => Z.from_str_b s 16) = .ok (-42)
      ∧ Z.from_str (Z.display (-42)) = .ok (-42) :=
  claim_C3_parse_to_text_round_trip (-42) 16 (by decide) (by decide)

/-- The saturating narrowing primitive returns its input unchanged exactly
when the input fits into an `i64`. -/
theorem fmpz_get_si_eq_self_iff (x : Int) :
    fmpz_get_si x = x ↔ (i64Min ≤ x ∧ x ≤ i64Max) := by
  unfold fmpz_get_si i64Min i64Max
  split_ifs with h1 h2 <;> omega

/-- C4: converting an integer scalar to `i64` succeeds with the exact value
if and only if the value fits into an `i64` (the implementation narrows with
the saturating `fmpz_get_si`, re-widens, and compares, instead of trusting
the primitive), and otherwise fails with a `ConversionError`; concretely the
scalar for `u64::MAX` fails with `ConversionError` and the scalar for `42`
converts to `42`. -/
theorem claim_C4_i64_try_from :
    (∀ x : Int, (i64_try_from x = .ok x ↔ (i64Min ≤ x ∧ x ≤ i64Max)))
      ∧ errKind (i64_try_from (2 ^ 64 - 1)) = some .conversion
      ∧ i64_try_from 42 = .ok 42 := by
  refine ⟨fun x => ?_, by decide, by decide⟩
  constructor
  · intro h
    rw [← fmpz_get_si_eq_self_iff]
    by_contra hne
    simp only [i64_try_from, if_neg hne] at h
    exact absurd h (by simp)
  · intro hin
    have heq := (fmpz_get_si_eq_self_iff x).mpr hin
    simp only [i64_try_from, heq]
    simp

/-- C8: the scalar parser returns an `OutOfBounds` range error for every
base outside `[2, 62]`, regardless of the text (and `to_string_b` does the
same), while for a base inside `[2, 62]` any text with whitespace, with a
null byte, or not matching the optional-minus-then-digits grammar gets an
error of the malformed-input family, which is distinct from the range-error
kind. -/
theorem claim_C8_parse_error_kinds (s : List Char) (base x : Int) :
    (¬(2 ≤ base ∧ base ≤ 62) →
        errKind (Z.from_str_b s base) = some .outOfBounds
          ∧ errKind (Z.to_string_b x base) = some .outOfBounds)
      ∧ ((2 ≤ base ∧ base ≤ 62) →
          (s.any isRustWhitespace = true ∨ s.any (· = nullChar) = true
              ∨ fmpz_set_str base.toNat s = none) →
          ∃ e, Z.from_str_b s base = .error e
            ∧ e.kind.isMalformedInput = true ∧ e.kind ≠ .outOfBounds) := by
  constructor
  · intro hbase
    constructor
    · simp [Z.from_str_b, hbase, errKind, MathError.kind]
    · simp [Z.to_string_b, hbase, errKind, MathError.kind]
  · intro hbase hbad
    obtain ⟨hb1, hb2⟩ := hbase
    by_cases hws : s.any isRustWhitespace = true
    · refine ⟨.InvalidStringToZInput (String.mk s), ?_, by rfl, by simp [MathError.kind]⟩
      simp [Z.from_str_b, hb1, hb2, hws]
    · have hws' : s.any isRustWhitespace = false := by
        revert hws; cases s.any isRustWhitespace <;> simp
      by_cases hnull : s.any (· = nullChar) = true
      · refine ⟨.InvalidStringToCStringInput (String.mk s), ?_, by rfl,
          by simp [MathError.kind]⟩
        simp [Z.from_str_b, hb1, hb2, hws', hnull]
      · have hnull' : s.any (· = nullChar) = false := by
          revert hnull; cases s.any (· = nullChar) <;> simp
        have hnone : fmpz_set_str base.toNat s = none := by
          rcases hbad with h | h | h
          · exact absurd h hws
          · exact absurd h hnull
          · exact h
        refine ⟨.InvalidStringToZInput (String.mk s), ?_, by rfl, by simp [MathError.kind]⟩
        simp [Z.from_str_b, hb1, hb2, hws', hnull', hnone]

/-- Witness for C8: base `63` is rejected as `OutOfBounds` by both
directions, and the whitespace-containing text `"1 2"` at base `10` fails
with a malformed-input error that is not the range error. -/
theorem claim_C8_witness :
    (errKind (Z.from_str_b "10".data 63) = some .outOfBounds
        ∧ errKind (Z.to_string_b 5 63) = some .outOfBounds)
      ∧ ∃ e, Z.from_str_b "1 2".data 10 = .error e
          ∧ e.kind.isMalformedInput = true ∧ e.kind ≠ .outOfBounds :=
  ⟨(claim_C8_parse_error_kinds "10".data 63 5).1 (by decide),
   (claim_C8_parse_error_kinds "1 2".data 10 0).2 (by decide) (Or.inl (by decide))⟩

/-- C5 counterexample: the index `2^63` is non-negative, yet
`get_coeff` on the polynomial parsed from `"4  0 1 2 3"` fails with an
`OutOfBounds` range error instead of returning the additive identity, so
`get_coefficient` does not succeed for every non-negative index. -/
theorem claim_C5_counterexample :
    (0 : Int) ≤ 2 ^ 63
      ∧ errKind (PolyOverZ.get_coeff ⟨[0, 1, 2, 3]⟩ (2 ^ 63)) = some .outOfBounds
      ∧ some ErrKind.outOfBounds ≠ (none : Option ErrKind) := by
  decide

/-- C5 (amended): for every integer polynomial and every non-negative index
that fits into an `i64`, `get_coeff` never fails and returns the stored
coefficient, with the additive identity for any index at or beyond the
stored length; a negative index is a contract violation returning an
`OutOfBounds` range error, distinct from the beyond-stored-length case;
concretely, after parsing `"4  0 1 2 3"`, `get_coeff(4)` returns zero. -/
theorem claim_C5_get_coeff (p : PolyOverZ) (index : Int) :
    (0 ≤ index → index ≤ i64Max →
        PolyOverZ.get_coeff p index = .ok (p.coeffs.getD index.toNat 0))
      ∧ (index < 0 → errKind (PolyOverZ.get_coeff p index) = some .outOfBounds)
      ∧ (PolyOverZ.from_str "4  0 1 2 3".data).bind (fun q => q.get_coeff 4) = .ok 0 := by
  refine ⟨?_, ?_, by decide⟩
  · intro h0 hmax
    have hcond : ¬(index < 0 ∨ i64Max < index) := by omega
    simp [PolyOverZ.get_coeff, evaluate_index, hcond, fmpz_poly_get_coeff]
  · intro hneg
    have hcond : index < 0 ∨ i64Max < index := Or.inl hneg
    simp [PolyOverZ.get_coeff, evaluate_index, hcond, errKind, MathError.kind]

/-- Witness for C5 at the polynomial `[7]`: index `2` (beyond the stored
length) yields zero and index `-1` yields the range error. -/
theorem claim_C5_witness :
    PolyOverZ.get_coeff ⟨[7]⟩ 2 = .ok 0
      ∧ errKind (PolyOverZ.get_coeff ⟨[7]⟩ (-1)) = some .outOfBounds :=
  ⟨(claim_C5_get_coeff ⟨[7]⟩ 2).1 (by decide) (by decide),
   (claim_C5_get_coeff ⟨[7]⟩ (-1)).2.1 (by decide)⟩

/-- C10: `get_coeff` fails with an `OutOfBounds` range error for every index
value above `i64::MAX` (the index is narrowed to `i64` at the conversion
boundary before the coefficient is fetched), so "never fails for
non-negative index" holds only for indices representable as `i64`. -/
theorem claim_C10_get_coeff_index_overflow (p : PolyOverZ) (index : Int)
    (h : i64Max < index) :
    errKind (PolyOverZ.get_coeff p index) = some .outOfBounds := by
  have hcond : index < 0 ∨ i64Max < index := Or.inr h
  simp [PolyOverZ.get_coeff, evaluate_index, hcond, errKind, MathError.kind]

/-- Witness for C10 at the empty polynomial and the index `2^63`. -/
theorem claim_C10_witness :
    errKind (PolyOverZ.get_coeff ⟨[]⟩ (2 ^ 63)) = some .outOfBounds :=
  claim_C10_get_coeff_index_overflow ⟨[]⟩ (2 ^ 63) (by decide)

/-- C6 counterexample: the one-character string holding a null byte is
rejected by the polynomial grammar and contains no two consecutive spaces,
yet `from_str` fails with the `CString` conversion error (the null-byte
check runs before the grammar check), not with `MissingSeparator`. -/
theorem claim_C6_counterexample :
    fmpq_poly_set_str [nullChar] = none
      ∧ containsSeq "  ".data [nullChar] = false
      ∧ errKind (PolyOverQ.from_str [nullChar]) = some .invalidStringToCString
      ∧ some ErrKind.invalidStringToCString ≠ some ErrKind.missingSeparator := by
  decide

/-- C6 (amended): for every null-free input string that the polynomial
grammar rejects, `from_str` fails with `MissingSeparator` when the string
contains no two consecutive spaces and with the general malformed-input
error when it does; concretely, `"3 1 2/5 -3/2"` (single space after the
count) fails with `MissingSeparator`. -/
theorem claim_C6_missing_separator (s : List Char)
    (hnull : s.any (· = nullChar) = false)
    (hrej : fmpq_poly_set_str s = none) :
    (containsSeq "  ".data s = false →
        errKind (PolyOverQ.from_str s) = some .missingSeparator)
      ∧ (containsSeq "  ".data s = true →
          errKind (PolyOverQ.from_str s) = some .invalidStringToPoly)
      ∧ errKind (PolyOverQ.from_str "3 1 2/5 -3/2".data) = some .missingSeparator := by
  refine ⟨?_, ?_, by decide⟩
  · intro hcs
    simp [PolyOverQ.from_str, hnull, hrej, hcs, errKind, MathError.kind]
  · intro hcs
    simp [PolyOverQ.from_str, hnull, hrej, hcs, errKind, MathError.kind]

/-- Witness for C6 at the rejected, null-free input `"3 1"`. -/
theorem claim_C6_witness :
    errKind (PolyOverQ.from_str "3 1".data) = some .missingSeparator :=
  (claim_C6_missing_separator "3 1".data (by decide) (by decide)).1 (by decide)

/-- C7 counterexample: parsing the rational literal
`"-18446744073709551615/1"` succeeds, but formatting the value back renders
the denominator-one value as the bare numerator `"-18446744073709551615"`,
which is not the original literal. -/
theorem claim_C7_counterexample :
    (Q.from_str "-18446744073709551615/1".data).map Q.to_string
        = .ok "-18446744073709551615".data
      ∧ "-18446744073709551615".data ≠ "-18446744073709551615/1".data := by
  decide

/-- C7 (amended): parsing `"-18446744073709551615/1"` succeeds and
canonicalizes the value to lowest terms with positive denominator
(`-18446744073709551615/1` itself), `to_text` renders it as
`"-18446744073709551615"` — a denominator of one is omitted — and
re-parsing that output yields the same canonical value, so the round trip
preserves the value though not the literal. -/
theorem claim_C7_parse_reduce_to_text :
    Q.from_str "-18446744073709551615/1".data = .ok ⟨-(2 ^ 64 - 1), 1⟩
      ∧ (Q.from_str "-18446744073709551615/1".data).map Q.to_string
          = .ok "-18446744073709551615".data
      ∧ Q.from_str "-18446744073709551615".data = .ok ⟨-(2 ^ 64 - 1), 1⟩ := by
  decide

/-- C2 counterexample: parsing `"[[-17,-42,1],[-13,-5,-42]] mod 57"` and
serializing yields `{"matrix":"[[40, 15, 1],[44, 52, 15]] mod 57"}` — with a
space after each comma inside a row, as the serialization tests in
`src/integer_mod_q/mat_zq/serialize.rs` expect — which is not the claimed
byte string `{"matrix":"[[40,15,1],[44,52,15]] mod 57"}`. -/
theorem claim_C2_counterexample :
    (MatZq.from_str "[[-17,-42,1],[-13,-5,-42]] mod 57".data).map MatZq.serialize
        = .ok "\x7b\"matrix\":\"[[40, 15, 1],[44, 52, 15]] mod 57\"\x7d".data
      ∧ "\x7b\"matrix\":\"[[40, 15, 1],[44, 52, 15]] mod 57\"\x7d".data
          ≠ "\x7b\"matrix\":\"[[40,15,1],[44,52,15]] mod 57\"\x7d".data := by
  decide

/-- C2 (amended): every successfully parsed modular matrix has a positive
modulus and every entry reduced into `[0, modulus)` — even when constructed
from out-of-range (e.g. negative) entry text — and parsing
`"[[-17,-42,1],[-13,-5,-42]] mod 57"` then serializing yields exactly
`{"matrix":"[[40, 15, 1],[44, 52, 15]] mod 57"}` (entries inside a row are
joined with a comma and a space). -/
theorem claim_C2_serialize_reduced (s : List Char) (M : MatZq)
    (h : MatZq.from_str s = .ok M) :
    (0 < M.modulus ∧ ∀ row ∈ M.entries, ∀ x ∈ row, 0 ≤ x ∧ x < M.modulus)
      ∧ (MatZq.from_str "[[-17,-42,1],[-13,-5,-42]] mod 57".data).map MatZq.serialize
          = .ok "\x7b\"matrix\":\"[[40, 15, 1],[44, 52, 15]] mod 57\"\x7d".data := by
  refine ⟨?_, by decide⟩
  unfold MatZq.from_str at h
  split at h
  case h_2 => exact absurd h (by simp)
  case h_1 body modStr =>
    split at h
    case h_2 => exact absurd h (by simp)
    case h_1 m hm =>
      split at h
      case isTrue => exact absurd h (by simp)
      case isFalse hmpos =>
        split at h
        case h_2 => exact absurd h (by simp)
        case h_1 rows hrows =>
          split at h
          case isFalse => exact absurd h (by simp)
          case isTrue hshape =>
            obtain rfl : (⟨rows.map (fun r => r.map (fun x => x % m)), m⟩ : MatZq) = M :=
              by injection h
            refine ⟨show (0 : Int) < m by omega, ?_⟩
            intro row hrow
            obtain ⟨r, _, rfl⟩ := List.mem_map.mp hrow
            intro x hx
            obtain ⟨y, _, rfl⟩ := List.mem_map.mp hx
            exact ⟨Int.emod_nonneg y (by omega), Int.emod_lt_of_pos y (by omega)⟩

/-- Witness for C2 at the concrete input `"[[-3]] mod 5"`, whose entry is
reduced to `2`. -/
theorem claim_C2_witness :
    (0 < (⟨[[2]], 5⟩ : MatZq).modulus
        ∧ ∀ row ∈ (⟨[[2]], 5⟩ : MatZq).entries,
            ∀ x ∈ row, 0 ≤ x ∧ x < (⟨[[2]], 5⟩ : MatZq).modulus)
      ∧ (MatZq.from_str "[[-17,-42,1],[-13,-5,-42]] mod 57".data).map MatZq.serialize
          = .ok "\x7b\"matrix\":\"[[40, 15, 1],[44, 52, 15]] mod 57\"\x7d".data :=
  claim_C2_serialize_reduced "[[-3]] mod 5".data ⟨[[2]], 5⟩ (by decide)

/-- C9: structured deserialization of the matrix types rejects, always as a
recoverable failure of the total deserialization function and never as a
panic: the empty object (missing field), any object with more than one
field (additional or duplicate field), a single field with the wrong name,
and any payload the type's own parse grammar rejects — including a modular
matrix payload with a non-positive modulus or with no modulus at all. -/
theorem claim_C9_deserialize_rejects (k v p : String) :
    MatZq.deserialize [] = none
      ∧ (∀ e rest, rest ≠ [] → MatZq.deserialize (e :: rest) = none)
      ∧ (k ≠ "matrix" → MatZq.deserialize [(k, v)] = none)
      ∧ ((MatZq.from_str p.data).toOption = none →
          MatZq.deserialize [("matrix", p)] = none)
      ∧ MatZq.deserialize [("matrix", "[[2,17,42]] mod -57")] = none
      ∧ MatZq.deserialize [("matrix", "[[2,17,42]]")] = none
      ∧ MatQ.deserialize [] = none
      ∧ (∀ e rest, rest ≠ [] → MatQ.deserialize (e :: rest) = none)
      ∧ ((MatQ.from_str p.data).toOption = none →
          MatQ.deserialize [("matrix", p)] = none) := by
  refine ⟨rfl, ?_, ?_, ?_, by decide, by decide, rfl, ?_, ?_⟩
  · intro e rest hne
    cases rest with
    | nil => exact absurd rfl hne
    | cons f fs => rfl
  · intro hk
    simp [MatZq.deserialize, deserializeStruct, hk]
  · intro hp
    simp [MatZq.deserialize, deserializeStruct, hp]
  · intro e rest hne
    cases rest with
    | nil => exact absurd rfl hne
    | cons f fs => rfl
  · intro hp
    simp [MatQ.deserialize, deserializeStruct, hp]

/-- Witness for C9: a duplicate field, a wrong field name, and an
unparsable payload are all rejected. -/
theorem claim_C9_witness :
    MatZq.deserialize [("matrix", "[[2]] mod 5"), ("matrix", "[[3]] mod 5")] = none
      ∧ MatZq.deserialize [("tree", "[[2]] mod 5")] = none
      ∧ MatZq.deserialize [("matrix", "bad")] = none :=
  ⟨(claim_C9_deserialize_rejects "tree" "[[2]] mod 5" "bad").2.1
      ("matrix", "[[2]] mod 5") [("matrix", "[[3]] mod 5")] (by simp),
   (claim_C9_deserialize_rejects "tree" "[[2]] mod 5" "bad").2.2.1 (by decide),
   (claim_C9_deserialize_rejects "tree" "[[2]] mod 5" "bad").2.2.2.1 (by decide)⟩

/-- C1 counterexample: for the declared subtraction operator on `(Z, i64)`,
the generated cross-type form with the fixed-width integer as the left
operand (`impl Sub<&Z> for &i64`, whose macro body is
`other.sub(Z::from(*self))`) computes `3 - 5 = -2` for left operand `5` and
right operand `3`, while the library-type-left borrowed form computes
`5 - 3 = 2`: the eight forms do not produce equal results for equal operand
values in the same left/right positions, and the integer-left form does not
preserve operand order. -/
theorem claim_C1_counterexample :
    arithRefOtherRefOut subZI64 5 3 = -2
      ∧ arithRefOutRefOther subZI64 5 3 = 2
      ∧ arithRefOtherRefOut subZI64 5 3 ≠ arithRefOutRefOther subZI64 5 3 := by
  decide

/-- C1 (amended): for every declared operator and type pair all eight
owned/borrowed/cross-type call forms exist (they are generated by
`arithmetic_between_types!` from the single canonical borrowed
implementation); the four forms with the library type on the left all equal
the canonical implementation applied in operand order, while the four forms
with the fixed-width integer on the left convert it into the library type
but pass it as the right argument of the canonical implementation —
operand order swapped — so all eight agree exactly for commutative
operators (such as Add and Mul), and the integer-left forms preserve
operand order only then. -/
theorem claim_C1_operator_matrix {Out Other : Type} (m : ArithBetweenTypes Out Other)
    (a : Out) (b : Other) :
    (arithRefOutRefOther m a b = m.canonical a (m.conv b)
      ∧ arithOwnOutOwnOther m a b = m.canonical a (m.conv b)
      ∧ arithRefOutOwnOther m a b = m.canonical a (m.conv b)
      ∧ arithOwnOutRefOther m a b = m.canonical a (m.conv b))
    ∧ (arithRefOtherRefOut m b a = m.canonical a (m.conv b)
      ∧ arithOwnOtherOwnOut m b a = m.canonical a (m.conv b)
      ∧ arithRefOtherOwnOut m b a = m.canonical a (m.conv b)
      ∧ arithOwnOtherRefOut m b a = m.canonical a (m.conv b))
    ∧ ((∀ x y, m.canonical x y = m.canonical y x) →
        arithRefOtherRefOut m b a = m.canonical (m.conv b) a
          ∧ arithRefOtherRefOut m b a = arithRefOutRefOther m a b) := by
  refine ⟨⟨rfl, rfl, rfl, rfl⟩, ⟨rfl, rfl, rfl, rfl⟩, fun hcomm => ⟨?_, rfl⟩⟩
  exact hcomm a (m.conv b)

/-- Witness for C1 at the declared (commutative) addition instance on
`(Z, i64)` with operands `2` and `3`. -/
theorem claim_C1_witness :
    arithRefOtherRefOut addZI64 2 3 = addZI64.canonical (addZI64.conv 2) 3
      ∧ arithRefOtherRefOut addZI64 2 3 = arithRefOutRefOther addZI64 3 2 :=
  (claim_C1_operator_matrix addZI64 3 2).2.2 (fun x y => Int.add_comm x y)
